import Mathlib

/-!
Verification development for the astrapy client library
(`astrapy/db.py`, `astrapy/ops.py`, `astrapy/utils.py`, `astrapy/types.py`).

The Python code is shallowly embedded: JSON bodies become an inductive
`JSON` value, Python dicts become association lists with Python's
insertion-order/override semantics (`pyDictInsert`, `pyMerge`), HTTP
transport becomes a function from the built request to a stubbed
response, and Python exceptions become an explicit `Except PyErr`
outcome.  Each operation additionally reports the list of HTTP requests
it issued, so that claims about "exactly one follow-up call" or "no
network call before the error" are statable.
-/

namespace Astrapy

/-- JSON values, as produced by `response.json()` in the Python source. -/
inductive JSON where
  | null : JSON
  | bool : Bool → JSON
  | num : Int → JSON
  | str : String → JSON
  | arr : List JSON → JSON
  | obj : List (String × JSON) → JSON

/-- Association-list representation of a Python `dict` with JSON values. -/
abbrev Objs := List (String × JSON)

/-- Lookup of a key in an association list (first binding wins, as in a
Python dict, whose keys are unique). -/
def alookup (kvs : List (String × α)) (k : String) : Option α :=
  match kvs with
  | [] => none
  | (k', v) :: rest => if k' = k then some v else alookup rest k

/-- Python `d[k] = v` on a dict: overrides the value in place when the key
is present (keeping its position), otherwise appends the new binding. -/
def pyDictInsert (kvs : List (String × α)) (k : String) (v : α) : List (String × α) :=
  match kvs with
  | [] => [(k, v)]
  | (k', v') :: rest =>
      if k' = k then (k', v) :: rest else (k', v') :: pyDictInsert rest k v

/-- Python `{**a, **b}` dict merge: `b`'s bindings override `a`'s. -/
def pyMerge (a b : List (String × α)) : List (String × α) :=
  b.foldl (fun acc kv => pyDictInsert acc kv.1 kv.2) a

/-- Python `k in d` on a JSON value that is a dict; `False` on non-dicts
(the source only ever applies it to parsed JSON objects). -/
def hasKey (v : JSON) (k : String) : Bool :=
  match v with
  | .obj kvs => (alookup kvs k).isSome
  | _ => false

/-- Value of a key of a JSON object, with a default for the non-object /
missing cases. -/
def getKeyD (v : JSON) (k : String) (d : JSON) : JSON :=
  match v with
  | .obj kvs => (alookup kvs k).getD d
  | _ => d

/-- Test whether a JSON value is `null` (Python `None`). -/
def JSON.isNull : JSON → Bool
  | .null => true
  | _ => false

/-- Python exceptions raised by the embedded code paths. -/
inductive PyErr where
  | valueError (msg : String) : PyErr
  | keyError (key : String) : PyErr
  | indexError : PyErr
  | typeError : PyErr
  | assertionError (msg : String) : PyErr
deriving DecidableEq

/-- String escaping of `json.dumps` for the characters the library's
error payloads contain (quote, backslash and common control characters;
other characters are emitted verbatim). -/
def jsonEscapeChar (c : Char) : String :=
  if c = '"' then "\\\""
  else if c = '\\' then "\\\\"
  else if c = '\n' then "\\n"
  else if c = '\t' then "\\t"
  else if c = '\r' then "\\r"
  else String.singleton c

/-- Escape a whole string as `json.dumps` would. -/
def jsonEscape (s : String) : String :=
  s.data.foldl (fun acc c => acc ++ jsonEscapeChar c) ""

/-- Comma separation with `json.dumps`' default item separator `", "`. -/
def commaSep : List String → String
  | [] => ""
  | [s] => s
  | s :: rest => s ++ ", " ++ commaSep rest

mutual
/-- Serialization of a JSON value as Python's `json.dumps` renders it with
its default separators (`", "` between items, `": "` after keys). -/
def dumps : JSON → String
  | .null => "null"
  | .bool b => if b then "true" else "false"
  | .num n => toString n
  | .str s => "\"" ++ jsonEscape s ++ "\""
  | .arr xs => "[" ++ commaSep (dumpsList xs) ++ "]"
  | .obj kvs => "\x7b" ++ commaSep (dumpsObj kvs) ++ "\x7d"

/-- Serialize each element of a JSON array. -/
def dumpsList : List JSON → List String
  | [] => []
  | x :: xs => dumps x :: dumpsList xs

/-- Serialize each `key: value` entry of a JSON object. -/
def dumpsObj : List (String × JSON) → List String
  | [] => []
  | (k, v) :: kvs => ("\"" ++ jsonEscape k ++ "\": " ++ dumps v) :: dumpsObj kvs
end

/-- Modelled from the spec: the modules `astrapy/defaults.py` and
`astrapy/__init__.py` (which provides `__version__`) are not under `src/`;
the spec only says the defaults exist ("a distinct fixed header name",
"a well-known keyspace name", a fixed dev-ops base URL and path, and a
library version string).  No claim depends on their concrete values, so
they are carried as an abstract parameter record. -/
structure Defaults where
  auth_header : String
  keyspace_name : String
  base_path : String
  dev_ops_url : String
  dev_ops_path : String
  version : String

/-- An HTTP request as assembled by `astrapy.utils.make_request` and handed
to the `requests` library. -/
structure HttpRequest where
  method : String
  url : String
  urlParams : Option JSON
  jsonData : Option JSON
  headers : List (String × String)

/-- An HTTP response as seen through the `requests` response object: the
status code, the (case-insensitive) header dict, the raw text, and the
value `.json()` parses the body into. -/
structure HttpResponse where
  status_code : Nat
  headers : List (String × String)
  text : String
  body : JSON

/-- A stubbed transport: what the remote service answers to each request.
`requests.request` itself is an external collaborator, so the embedding
takes its behaviour as a parameter. -/
abbrev Transport := HttpRequest → HttpResponse

/-- Case-insensitive header lookup, as `requests`' `CaseInsensitiveDict`
performs for `r.headers["Location"]`; `none` models the `KeyError` on a
missing header. -/
def ciLookup (headers : List (String × String)) (k : String) : Option String :=
  match headers with
  | [] => none
  | (k', v) :: rest => if k'.toLower = k.toLower then some v else ciLookup rest k

/-- Model of `astrapy.utils.make_request`: builds the request with URL
`base_url ++ path`, the caller's JSON body and URL params, and a header
dict `{auth_header: token, "User-Agent": f"{package_name}/{__version__}"}`
(with `package_name = "astrapy"`).  The actual wire call is deferred to a
`Transport`. -/
def make_request (dfl : Defaults) (base_url auth_header token method : String)
    (path : String) (json_data url_params : Option JSON) : HttpRequest :=
  { method := method
    url := base_url ++ path
    urlParams := url_params
    jsonData := json_data
    headers := pyDictInsert (pyDictInsert [] auth_header token)
      "User-Agent" ("astrapy/" ++ dfl.version) }

/-- Body part of `astrapy.utils.make_payload`: the loop
`for key, value in params.items(): if value is not None: json_query[top_level][key] = value`,
inserting into an initially empty dict. -/
def make_payload_body (kwargs : List (String × Option JSON)) : Objs :=
  kwargs.foldl (fun acc kv =>
    match kv.2 with
    | some v => pyDictInsert acc kv.1 v
    | none => acc) []

/-- Model of `astrapy.utils.make_payload`: `{top_level: {<non-None kwargs>}}`. -/
def make_payload (top_level : String) (kwargs : List (String × Option JSON)) : JSON :=
  .obj [(top_level, .obj (make_payload_body kwargs))]

/-- The `AstraDB` class (data-plane database handle): the state its
constructor leaves behind.  `base_url` is derived from the parsed
endpoint and `base_path` is `f"{DEFAULT_BASE_PATH}/{namespace}"`. -/
structure AstraDB where
  token : String
  base_url : String
  base_path : String

/-- The `AstraDBCollection` class: its `astra_db` handle plus
`base_path = f"{astra_db.base_path}/{collection_name}"`. -/
structure AstraDBCollection where
  astra_db : AstraDB
  collection_name : String

/-- Value of `self.base_path` for a collection. -/
def AstraDBCollection.base_path (c : AstraDBCollection) : String :=
  c.astra_db.base_path ++ "/" ++ c.collection_name

/-- Model of `AstraDBCollection._request`: issues one request through
`make_request`, parses the body, and raises
`ValueError(json.dumps(responsebody["errors"]))` when `"errors"` is a key
of the body and `skip_error_check` is off; returns the body otherwise.
The first component is the list of requests issued. -/
def AstraDBCollection.request (c : AstraDBCollection) (dfl : Defaults) (t : Transport)
    (method path : String) (json_data url_params : Option JSON)
    (skip_error_check : Bool) : List HttpRequest × Except PyErr JSON :=
  let req := make_request dfl c.astra_db.base_url dfl.auth_header c.astra_db.token
    method path json_data url_params
  let responsebody := (t req).body
  if !skip_error_check && hasKey responsebody "errors" then
    ([req], .error (.valueError (dumps (getKeyD responsebody "errors" .null))))
  else
    ([req], .ok responsebody)

/-- Model of `AstraDB._request`: identical error rule, but `make_request` is called
without `url_params`. -/
def AstraDB.request (db : AstraDB) (dfl : Defaults) (t : Transport)
    (method path : String) (json_data : Option JSON)
    (skip_error_check : Bool) : List HttpRequest × Except PyErr JSON :=
  let req := make_request dfl db.base_url dfl.auth_header db.token
    method path json_data none
  let responsebody := (t req).body
  if !skip_error_check && hasKey responsebody "errors" then
    ([req], .error (.valueError (dumps (getKeyD responsebody "errors" .null))))
  else
    ([req], .ok responsebody)

/-- Model of `AstraDBCollection.insert_one`: POST of
`make_payload(top_level="insertOne", document=document)` to the
collection's base path, with the error check on. -/
def insert_one (c : AstraDBCollection) (dfl : Defaults) (t : Transport)
    (document : JSON) : List HttpRequest × Except PyErr JSON :=
  c.request dfl t "POST" c.base_path
    (some (make_payload "insertOne" [("document", some document)])) none false

/-- Model of `AstraDBCollection.insert_many`: POST of
`make_payload(top_level="insertMany", documents=documents, options=options)`
with `skip_error_check = partial_failures_allowed`. -/
def insert_many (c : AstraDBCollection) (dfl : Defaults) (t : Transport)
    (documents : List JSON) (options : Option JSON)
    (partial_failures_allowed : Bool) : List HttpRequest × Except PyErr JSON :=
  c.request dfl t "POST" c.base_path
    (some (make_payload "insertMany"
      [("documents", some (.arr documents)), ("options", options)]))
    none partial_failures_allowed

/-- Model of `AstraDBCollection.find`: POST of the `find` payload (kwargs in source
order: filter, projection, options, sort). -/
def find (c : AstraDBCollection) (dfl : Defaults) (t : Transport)
    (filter projection sort options : Option JSON) : List HttpRequest × Except PyErr JSON :=
  c.request dfl t "POST" c.base_path
    (some (make_payload "find"
      [("filter", filter), ("projection", projection),
       ("options", options), ("sort", sort)])) none false

/-- Model of `AstraDBCollection.find_one_and_replace`: POST of the
`findOneAndReplace` payload (kwargs in source order: filter, replacement,
options, sort; `sort` defaults to `{}`). -/
def find_one_and_replace (c : AstraDBCollection) (dfl : Defaults) (t : Transport)
    (sort filter replacement options : Option JSON) : List HttpRequest × Except PyErr JSON :=
  c.request dfl t "POST" c.base_path
    (some (make_payload "findOneAndReplace"
      [("filter", filter), ("replacement", replacement),
       ("options", options), ("sort", sort)])) none false

/-- Python `v[k]` on a parsed JSON value: `KeyError` on a missing key,
`TypeError` when the value is not a dict. -/
def pyGet (v : JSON) (k : String) : Except PyErr JSON :=
  match v with
  | .obj kvs =>
      match alookup kvs k with
      | some x => .ok x
      | none => .error (.keyError k)
  | _ => .error .typeError

/-- Python `v[i]` on a parsed JSON value: `IndexError` past the end,
`TypeError` when the value is not a list. -/
def pyIndex (v : JSON) (i : Nat) : Except PyErr JSON :=
  match v with
  | .arr xs =>
      match xs.get? i with
      | some x => .ok x
      | none => .error .indexError
  | _ => .error .typeError

/-- Python `v == "lit"` for a JSON value against a string literal. -/
def jsonEqStr (v : JSON) (s : String) : Bool :=
  match v with
  | .str s' => s' = s
  | _ => false

/-- The condition of `upsert`'s error branch:
`"errors" in result and "errorCode" in result["errors"][0] and
result["errors"][0]["errorCode"] == "DOCUMENT_ALREADY_EXISTS"`,
including the exceptions its own subscripts can raise. -/
def upsertCheck (result : JSON) : Except PyErr Bool :=
  if hasKey result "errors" then do
    let errs ← pyGet result "errors"
    let e0 ← pyIndex errs 0
    if hasKey e0 "errorCode" then do
      let ec ← pyGet e0 "errorCode"
      pure (jsonEqStr ec "DOCUMENT_ALREADY_EXISTS")
    else
      pure false
  else
    pure false

/-- Model of `AstraDBCollection.upsert`: attempt `insert_one(document)`; on the
`DOCUMENT_ALREADY_EXISTS` error branch fall back to
`find_one_and_replace(filter={"_id": document["_id"]}, replacement=document)`
and return `result["data"]["document"]["_id"]`; otherwise return
`result["status"]["insertedIds"][0]`.  Exceptions raised anywhere in the
sequence propagate. -/
def upsert (c : AstraDBCollection) (dfl : Defaults) (t : Transport)
    (document : JSON) : List HttpRequest × Except PyErr JSON :=
  let (calls1, res1) := insert_one c dfl t document
  match res1 with
  | .error e => (calls1, .error e)
  | .ok result =>
    match upsertCheck result with
    | .error e => (calls1, .error e)
    | .ok true =>
      match pyGet document "_id" with
      | .error e => (calls1, .error e)
      | .ok docId =>
        let (calls2, res2) := find_one_and_replace c dfl t
          (some (.obj [])) (some (.obj [("_id", docId)])) (some document) none
        match res2 with
        | .error e => (calls1 ++ calls2, .error e)
        | .ok r2 =>
          (calls1 ++ calls2, do
            let d ← pyGet r2 "data"
            let doc ← pyGet d "document"
            pyGet doc "_id")
    | .ok false =>
      (calls1, do
        let st ← pyGet result "status"
        let ids ← pyGet st "insertedIds"
        pyIndex ids 0)

/-- Read the `documents` list and the `nextPageState` cursor out of one
page-shaped response body `{data: {documents: [...], nextPageState: ...}}`;
`none` models the exception an ill-shaped body raises in the generator. -/
def pageFields (r : JSON) : Option (List JSON × JSON) :=
  match r with
  | .obj kvs =>
      match alookup kvs "data" with
      | some (.obj d) =>
          match alookup d "documents", alookup d "nextPageState" with
          | some (.arr docs), some nps => some (docs, nps)
          | _, _ => none
      | _ => none
  | _ => none

/-- The `while next_page_state is not None` loop of
`AstraDBCollection.paginate`: each iteration re-issues the request with
`options1 = {**options0, **{"pagingState": next_page_state}}`, yields that
page's documents, and reads the next cursor.  `fuel` bounds the number of
iterations the Python loop is unrolled to (the loop itself has no bound);
with enough fuel for the stubbed pages the result is exact.  Returns the
yielded documents together with the options of each issued call. -/
def paginateLoop (rm : Objs → JSON) (options0 : Objs) :
    JSON → Nat → Option (List JSON × List Objs)
  | nps, 0 => if nps.isNull then some ([], []) else none
  | nps, fuel + 1 =>
    if nps.isNull then some ([], [])
    else
      let options1 := pyMerge options0 [("pagingState", nps)]
      match pageFields (rm options1) with
      | none => none
      | some (docs, nps') =>
        match paginateLoop rm options0 nps' fuel with
        | none => none
        | some (ds, cs) => some (docs ++ ds, options1 :: cs)

/-- Model of `AstraDBCollection.paginate`: issue the request with
`_options = options or {}`, yield the first page's documents, then run the
cursor loop.  The second component lists the `options` argument of every
underlying call, in order. -/
def paginate (rm : Objs → JSON) (options : Option Objs) (fuel : Nat) :
    Option (List JSON × List Objs) :=
  let options0 := options.getD []
  match pageFields (rm options0) with
  | none => none
  | some (docs0, nps0) =>
    match paginateLoop rm options0 nps0 fuel with
    | none => none
    | some (ds, cs) => some (docs0 ++ ds, options0 :: cs)

/-- Python `s or default` for an optional string (`None` and `""` are both
falsy). -/
def pyOrStr (s : Option String) (d : String) : String :=
  match s with
  | some s' => if s' = "" then d else s'
  | none => d

/-- The `AstraDBOps` class (control-plane handle): its constructor stores
`token = "Bearer " + token` and
`base_url = f"https://{dev_ops_url}{DEFAULT_DEV_OPS_PATH_PREFIX}"`. -/
structure AstraDBOps where
  token : String
  base_url : String

/-- Model of `AstraDBOps.__init__`. -/
def AstraDBOps.init (dfl : Defaults) (token : String)
    (dev_ops_url : Option String) : AstraDBOps :=
  { token := "Bearer " ++ token
    base_url := "https://" ++ pyOrStr dev_ops_url dfl.dev_ops_url ++ dfl.dev_ops_path }

/-- Model of `AstraDBOps._ops_request`: defaults `options` to `{}` and calls
`make_request` with the `Authorization` header carrying the stored token.
Returns the issued request together with the stubbed transport's raw
response (the method returns the `requests.Response` unopened). -/
def AstraDBOps.ops_request (ops : AstraDBOps) (dfl : Defaults) (t : Transport)
    (method path : String) (options json_data : Option JSON) :
    HttpRequest × HttpResponse :=
  let opts := options.getD (.obj [])
  let req := make_request dfl ops.base_url "Authorization" ops.token
    method path json_data (some opts)
  (req, t req)

/-- Model of `AstraDBOps.create_database`: POST `/databases`; on status 201 return
`{"id": r.headers["Location"]}` (a `KeyError` if the header is absent),
on any other status return `None`. -/
def create_database (ops : AstraDBOps) (dfl : Defaults) (t : Transport)
    (database_definition : Option JSON) : HttpRequest × Except PyErr (Option JSON) :=
  let (req, r) := ops.ops_request dfl t "POST" "/databases" none database_definition
  if r.status_code = 201 then
    match ciLookup r.headers "Location" with
    | some loc => (req, .ok (some (.obj [("id", .str loc)])))
    | none => (req, .error (.keyError "Location"))
  else
    (req, .ok none)

/-- Model of `AstraDBOps.terminate_database`: POST
`/databases/{database}/terminate`; return the database identifier on
status 202, `None` otherwise. -/
def terminate_database (ops : AstraDBOps) (dfl : Defaults) (t : Transport)
    (database : String) : HttpRequest × Except PyErr (Option String) :=
  let (req, r) := ops.ops_request dfl t "POST"
    ("/databases/" ++ database ++ "/terminate") none none
  if r.status_code = 202 then (req, .ok (some database)) else (req, .ok none)

/-- Model of `AstraDBOps.delete_streaming_tenant`: DELETE
`/streaming/tenants/{tenant}/clusters/{cluster}`; return `None` on status
202, otherwise raise `ValueError(r.text)`. -/
def delete_streaming_tenant (ops : AstraDBOps) (dfl : Defaults) (t : Transport)
    (tenant cluster : String) : HttpRequest × Except PyErr Unit :=
  let (req, r) := ops.ops_request dfl t "DELETE"
    ("/streaming/tenants/" ++ tenant ++ "/clusters/" ++ cluster) none none
  if r.status_code = 202 then (req, .ok ()) else (req, .error (.valueError r.text))

/-- The `options["vector"][key] = value` step of `create_collection` for a
parameter (`dimension` or `metric`): raise `ValueError(msg)` when the key
is already present under `options["vector"]`, a `TypeError`/`KeyError`
when `options["vector"]` is unusable (unreachable from the method itself,
which ensures a `"vector"` dict first). -/
def setVectorKey (opts : Objs) (key : String) (v : JSON) (msg : String) :
    Except PyErr Objs :=
  match alookup opts "vector" with
  | some (.obj vec) =>
      if (alookup vec key).isSome then .error (.valueError msg)
      else .ok (pyDictInsert opts "vector" (.obj (pyDictInsert vec key v)))
  | some _ => .error .typeError
  | none => .error (.keyError "vector")

/-- Result of `AstraDB.create_collection`: the caller-supplied `options`
object as it stands after the call (`none` when the caller passed no
mapping), the requests issued, and the returned body or raised
exception. -/
structure CreateCollectionResult where
  callerOptions : Option Objs
  calls : List HttpRequest
  outcome : Except PyErr JSON

/-- Model of `AstraDB.create_collection`.  `if not options:` rebinds the local name
to a fresh `{"vector": {}}` when `options` is `None` *or falsy (empty)*,
leaving the caller's object untouched in that case; otherwise the caller's
dict is mutated in place (a `"vector"` key is inserted when absent, and
the truthy `dimension` / `metric` parameters are inserted under it,
raising `ValueError` when already present there).  The final POST carries
`{"createCollection": {"name": collection_name, "options": <options>}}`. -/
def create_collection (db : AstraDB) (dfl : Defaults) (t : Transport)
    (options : Option Objs) (dimension : Option Int) (metric : String)
    (collection_name : String) : CreateCollectionResult :=
  let aliased : Bool :=
    match options with
    | some o => !o.isEmpty
    | none => false
  let l0 : Objs :=
    match options with
    | none => [("vector", .obj [])]
    | some o =>
        if o.isEmpty then [("vector", .obj [])]
        else if (alookup o "vector").isSome then o
        else pyDictInsert o "vector" (.obj [])
  let afterDim : Except PyErr Objs :=
    match dimension with
    | some d =>
        if d ≠ 0 then
          setVectorKey l0 "dimension" (.num d)
            "dimension parameter provided both in options and as function parameter."
        else .ok l0
    | none => .ok l0
  match afterDim with
  | .error e =>
      { callerOptions := if aliased then some l0 else options
        calls := [], outcome := .error e }
  | .ok l1 =>
    let afterMetric : Except PyErr Objs :=
      if metric ≠ "" then
        setVectorKey l1 "metric" (.str metric)
          "metric parameter provided both in options as function parameter."
      else .ok l1
    match afterMetric with
    | .error e =>
        { callerOptions := if aliased then some l1 else options
          calls := [], outcome := .error e }
    | .ok l2 =>
      let jsondata : JSON := .obj
        [("name", .str collection_name), ("options", .obj l2)]
      let ro := db.request dfl t "POST" db.base_path
        (some (.obj [("createCollection", jsondata)])) false
      { callerOptions := if aliased then some l2 else options
        calls := ro.1, outcome := ro.2 }

/-- The character class `[a-fA-F0-9\-]` of the endpoint pattern's database
id group. -/
def idClass (c : Char) : Bool :=
  ('a' ≤ c && c ≤ 'f') || ('A' ≤ c && c ≤ 'F') || ('0' ≤ c && c ≤ '9') || c = '-'

/-- The character class `[a-zA-Z0-9\-]` of the region group. -/
def regionClass (c : Char) : Bool :=
  ('a' ≤ c && c ≤ 'z') || ('A' ≤ c && c ≤ 'Z') || ('0' ≤ c && c ≤ '9') || c = '-'

/-- The character class `[a-zA-Z0-9\-\.]` of the hostname group. -/
def hostClass (c : Char) : Bool :=
  regionClass c || c = '.'

/-- The literal `\.com` tail of the hostname group. -/
def dotcom : List Char := ['.', 'c', 'o', 'm']

/-- Strip an expected literal from the front of the input, returning the
remainder; `none` when the input does not start with the literal. -/
def dropStart : List Char → List Char → Option (List Char)
  | [], s => some s
  | _ :: _, [] => none
  | p :: ps, c :: cs => if p = c then dropStart ps cs else none

/-- Match the region part and its following literal dot:
`(?P<db_region>[a-zA-Z0-9\-]+)\.` — the greedy run of region characters
(`.` is outside the class, so no backtracking is possible) followed by a
mandatory `'.'`. -/
def regionAfter (t : List Char) : Option (List Char × List Char) :=
  let region := t.takeWhile regionClass
  if region.isEmpty then none
  else
    match t.drop region.length with
    | '.' :: u => some (region, u)
    | _ => none

/-- Match the hostname group `(?P<db_hostname>[a-zA-Z0-9\-\.]+\.com)` at
the front of the input, with the greedy-with-backtracking semantics of the
regex: the longest run of hostname characters is taken, then the latest
position inside it at which `.com` occurs (after at least one character)
closes the group.  The input need not be exhausted — `re.match` accepts a
prefix match. -/
def hostMatch (u : List Char) : Option (List Char) :=
  let r := u.takeWhile hostClass
  match (List.range r.length).reverse.find?
      (fun k => decide (0 < k) && (dropStart dotcom (r.drop k)).isSome) with
  | some k => some (r.take (k + 4))
  | none => none

/-- Model of `astrapy.utils.parse_endpoint_url` on the character list of the URL:
`re.match` of the pattern
`https://(?P<db_id>[a-fA-F0-9\-]{36})-(?P<db_region>[a-zA-Z0-9\-]+)\.(?P<db_hostname>[a-zA-Z0-9\-\.]+\.com)`,
returning the three named groups; `none` models the
`ValueError("Invalid URL format")` branch. -/
def parseEndpointChars (cs : List Char) : Option (List Char × List Char × List Char) :=
  match dropStart "https://".toList cs with
  | none => none
  | some s =>
    let id := s.take 36
    if id.length == 36 && id.all idClass then
      match s.drop 36 with
      | '-' :: t =>
        match regionAfter t with
        | none => none
        | some (region, u) =>
          match hostMatch u with
          | none => none
          | some host => some (id, region, host)
      | _ => none
    else none

/-- Model of `astrapy.utils.parse_endpoint_url` on strings. -/
def parse_endpoint_url (url : String) : Option (String × String × String) :=
  (parseEndpointChars url.toList).map
    (fun g => (String.mk g.1, String.mk g.2.1, String.mk g.2.2))

/-- Declarative reading of the endpoint regex (what the pattern denotes,
independently of the matcher): a `https://` literal, a 36-character
database id over `[a-fA-F0-9\-]`, a dash, a non-empty region over
`[a-zA-Z0-9\-]`, a dot, a hostname `X.com` with `X` a non-empty run of
`[a-zA-Z0-9\-\.]`, and — since `re.match` only anchors at the start — an
arbitrary remainder. -/
def matchesEndpointPattern (cs : List Char) : Prop :=
  ∃ id region hpre rest : List Char,
    cs = "https://".toList ++ id ++ '-' :: (region ++ '.' :: (hpre ++ dotcom ++ rest)) ∧
    id.length = 36 ∧ id.all idClass = true ∧
    region ≠ [] ∧ region.all regionClass = true ∧
    hpre ≠ [] ∧ hpre.all hostClass = true

/-- Model of `AstraDB.__init__`: requires both token and endpoint, parses
the endpoint — raising the invalid-format `ValueError` on a mismatch — and
derives `base_url` and `base_path` from the parsed triple.  The
constructor takes no transport, so no request can be issued before (or
by) the parse. -/
def AstraDB.init (dfl : Defaults) (token api_endpoint namespace_arg : Option String) :
    Except PyErr AstraDB :=
  match token, api_endpoint with
  | some tok, some ep =>
      match parse_endpoint_url ep with
      | some (db_id, region, domain) =>
          .ok { token := tok
                base_url := "https://" ++ db_id ++ "-" ++ region ++ "." ++ domain
                base_path := dfl.base_path ++ "/" ++ namespace_arg.getD dfl.keyspace_name }
      | none => .error (.valueError "Invalid URL format")
  | _, _ => .error (.assertionError "Must provide token and api_endpoint")

/-- The step function of `make_payload_body`'s fold. -/
def mpStep (acc : Objs) (kv : String × Option JSON) : Objs :=
  match kv.2 with
  | some v => pyDictInsert acc kv.1 v
  | none => acc

/-- Kept-entry view of one kwargs binding: drop the unset (`None`) ones. -/
def keepSome (kv : String × Option JSON) : Option (String × JSON) :=
  kv.2.map (fun v => (kv.1, v))

/-- The response body `{"errors":[{"errorCode":"X"}]}` of the error-rule
claim. -/
def errBodyX : JSON := .obj [("errors", .arr [.obj [("errorCode", .str "X")]])]

/-- Stub transport answering every request with the `errorCode X` body. -/
def stubXTransport : Transport := fun _ => ⟨200, [], "", errBodyX⟩

/-- Sample connection state used by concrete witnesses. -/
def sampleDfl : Defaults := ⟨"X-Token", "ks", "/api/json/v1", "u.example.com", "/v2", "0.0.0"⟩

/-- Sample database handle used by concrete witnesses. -/
def sampleDB : AstraDB := ⟨"tok", "https://h.example.com", "/api/json/v1/ks"⟩

/-- Sample collection handle used by concrete witnesses. -/
def sampleColl : AstraDBCollection := ⟨sampleDB, "c"⟩

/-- Stub transport answering with `{"errors": []}` — the key is present
but the error list is empty. -/
def stubEmptyErrors : Transport := fun _ => ⟨200, [], "", .obj [("errors", .arr [])]⟩

/-- The `DOCUMENT_ALREADY_EXISTS` response body of the upsert scenario. -/
def dupBody : JSON :=
  .obj [("errors", .arr [.obj [("errorCode", .str "DOCUMENT_ALREADY_EXISTS")]])]

/-- Stub transport whose insert answer reports the id as already taken. -/
def stubDupTransport : Transport := fun _ => ⟨200, [], "", dupBody⟩

/-- A page-shaped response body
`{data: {documents: docs, nextPageState: nps}}`. -/
def mkPage (docs : List JSON) (nps : JSON) : JSON :=
  .obj [("data", .obj [("documents", .arr docs), ("nextPageState", nps)])]

/-- Stub request method implementing the three-page scenario. -/
def stubRM : Objs → JSON := fun o =>
  match alookup o "pagingState" with
  | some (.str "A") => mkPage [.num 2] (.str "B")
  | some (.str "B") => mkPage [.num 3] .null
  | _ => mkPage [.num 1] (.str "A")

/-- Stub transport answering 201 without any `Location` header. -/
def stub201NoLoc : Transport := fun _ => ⟨201, [], "", .null⟩

/-- Sample control-plane handle used by concrete counterexamples. -/
def sampleOps : AstraDBOps := AstraDBOps.init sampleDfl "tok" none

/-- A generic successful response body for stubs that only need the
request to go through. -/
def stubOkBody : JSON := .obj [("status", .obj [("ok", .num 1)])]

/-- Stub transport answering 200 with a plain success body. -/
def stubOkTransport : Transport := fun _ => ⟨200, [], "", stubOkBody⟩

/-! ### Theorems -/

/-- Inserting a fresh key into a Python dict appends the binding. -/
theorem pyDictInsert_fresh {α : Type} (l : List (String × α)) (k : String) (v : α)
    (h : k ∉ l.map Prod.fst) : pyDictInsert l k v = l ++ [(k, v)] := by
  induction l with
  | nil => rfl
  | cons kv rest ih =>
    simp only [List.map_cons, List.mem_cons] at h
    push_neg at h
    simp only [pyDictInsert, if_neg (Ne.symm h.1), List.cons_append]
    rw [ih h.2]

theorem make_payload_body_eq_foldl (kwargs : List (String × Option JSON)) :
    make_payload_body kwargs = kwargs.foldl mpStep [] := rfl

/-- On kwargs with distinct keys (as Python keyword arguments always
have), the dict built by `make_payload`'s insertion loop is the list of
set bindings in order. -/
theorem foldl_mpStep_eq_filterMap (kwargs : List (String × Option JSON)) :
    ∀ acc : Objs,
      (kwargs.map Prod.fst).Nodup →
      (∀ k ∈ kwargs.map Prod.fst, k ∉ acc.map Prod.fst) →
      kwargs.foldl mpStep acc = acc ++ kwargs.filterMap keepSome := by
  induction kwargs with
  | nil => intro acc _ _; simp
  | cons kv rest ih =>
    intro acc hnd hdisj
    obtain ⟨k, ov⟩ := kv
    simp only [List.map_cons, List.nodup_cons] at hnd
    match ov with
    | none =>
      simp only [List.foldl_cons, mpStep, List.filterMap_cons, keepSome, Option.map_none']
      exact ih acc hnd.2 (fun k' hk' => hdisj k' (List.mem_cons_of_mem _ hk'))
    | some v =>
      simp only [List.foldl_cons, mpStep, List.filterMap_cons, keepSome, Option.map_some']
      have hkacc : k ∉ acc.map Prod.fst := hdisj k (List.mem_cons_self _ _)
      rw [pyDictInsert_fresh acc k v hkacc,
        ih (acc ++ [(k, v)]) hnd.2 ?_, List.append_assoc]
      · rfl
      · intro k' hk'
        simp only [List.map_append, List.mem_append, List.map_cons, List.map_nil]
        push_neg
        refine ⟨hdisj k' (List.mem_cons_of_mem _ hk'), ?_⟩
        simp only [List.mem_singleton]
        intro hkk
        exact hnd.1 (hkk ▸ hk')

theorem make_payload_body_eq (kwargs : List (String × Option JSON))
    (hnd : (kwargs.map Prod.fst).Nodup) :
    make_payload_body kwargs = kwargs.filterMap keepSome := by
  rw [make_payload_body_eq_foldl,
    foldl_mpStep_eq_filterMap kwargs [] hnd (by simp)]
  rfl

/-- Lookup misses:  `alookup` misses every list whose keys avoid `k`. -/
theorem alookup_eq_none_of_not_mem {α : Type} (l : List (String × α)) (k : String)
    (h : k ∉ l.map Prod.fst) : alookup l k = none := by
  induction l with
  | nil => rfl
  | cons kv rest ih =>
    simp only [List.map_cons, List.mem_cons] at h
    push_neg at h
    simp only [alookup, if_neg (Ne.symm h.1)]
    exact ih h.2

/-- Keys of the kept bindings are among the kwargs keys. -/
theorem filterMap_keepSome_keys_sub (kwargs : List (String × Option JSON)) :
    ∀ k ∈ (kwargs.filterMap keepSome).map Prod.fst, k ∈ kwargs.map Prod.fst := by
  intro k hk
  simp only [List.map_filterMap, List.mem_filterMap] at hk
  obtain ⟨kv, hmem, hval⟩ := hk
  cases h2 : kv.2 with
  | none => rw [keepSome, h2] at hval; simp at hval
  | some v =>
    rw [keepSome, h2] at hval
    simp only [Option.map_some', Option.some.injEq] at hval
    exact List.mem_map.mpr ⟨kv, hmem, hval⟩

/-- Lookup into the built body: a set binding is found with its value, an
unset one is absent. -/
theorem alookup_filterMap_keepSome (kwargs : List (String × Option JSON))
    (hnd : (kwargs.map Prod.fst).Nodup) (k : String) :
    alookup (kwargs.filterMap keepSome) k = (alookup kwargs k).bind id := by
  induction kwargs with
  | nil => rfl
  | cons kv rest ih =>
    obtain ⟨k', ov⟩ := kv
    simp only [List.map_cons, List.nodup_cons] at hnd
    by_cases hk : k' = k
    · subst hk
      match ov with
      | some v => simp [List.filterMap_cons, keepSome, alookup]
      | none =>
        simp only [List.filterMap_cons, keepSome, Option.map_none', alookup, if_pos rfl,
          Option.bind, id]
        exact alookup_eq_none_of_not_mem _ k'
          (fun hmem => hnd.1 (filterMap_keepSome_keys_sub rest k' hmem))
    · match ov with
      | some v =>
        simp only [List.filterMap_cons, keepSome, Option.map_some', alookup, if_neg hk]
        exact ih hnd.2
      | none =>
        simp only [List.filterMap_cons, keepSome, Option.map_none', alookup, if_neg hk]
        exact ih hnd.2

/-- Membership in the kept bindings is membership among the set kwargs. -/
theorem mem_filterMap_keepSome (kwargs : List (String × Option JSON)) (k : String) (v : JSON) :
    (k, v) ∈ kwargs.filterMap keepSome ↔ (k, some v) ∈ kwargs := by
  simp only [List.mem_filterMap, keepSome]
  constructor
  · rintro ⟨⟨k', ov⟩, hmem, hval⟩
    match ov with
    | none => simp at hval
    | some v' =>
      simp only [Option.map_some', Option.some.injEq, Prod.mk.injEq] at hval
      obtain ⟨h1, h2⟩ := hval
      exact h1 ▸ h2 ▸ hmem
  · intro hmem
    exact ⟨(k, some v), hmem, rfl⟩

/-- An all-unset kwargs list contributes nothing to the body. -/
theorem make_payload_body_all_none (kwargs : List (String × Option JSON))
    (h : ∀ kv ∈ kwargs, kv.2 = none) : make_payload_body kwargs = [] := by
  rw [make_payload_body_eq_foldl]
  induction kwargs with
  | nil => rfl
  | cons kv rest ih =>
    have hkv : kv.2 = none := h kv (List.mem_cons_self _ _)
    simp only [List.foldl_cons, mpStep, hkv]
    exact ih (fun kv' h' => h kv' (List.mem_cons_of_mem _ h'))

/-- C3: for every operation name and every mapping of named arguments, the
payload builder returns a mapping with exactly one top-level key equal to
the operation name, whose value contains exactly those argument keys whose
value was not unset (`None`), with their values preserved unchanged; when
all arguments are unset the result is `{operationName: {}}`.  (The key
uniqueness of a Python keyword-argument dict is the `Nodup` hypothesis.) -/
theorem C3_make_payload_shape (top_level : String) (kwargs : List (String × Option JSON)) :
    make_payload top_level kwargs = .obj [(top_level, .obj (make_payload_body kwargs))] ∧
    ((kwargs.map Prod.fst).Nodup →
      ∀ k v, (k, v) ∈ make_payload_body kwargs ↔ (k, some v) ∈ kwargs) ∧
    ((kwargs.map Prod.fst).Nodup →
      ∀ k, alookup (make_payload_body kwargs) k = (alookup kwargs k).bind id) ∧
    ((∀ kv ∈ kwargs, kv.2 = none) →
      make_payload top_level kwargs = .obj [(top_level, .obj [])]) := by
  refine ⟨rfl, ?_, ?_, ?_⟩
  · intro hnd k v
    rw [make_payload_body_eq kwargs hnd]
    exact mem_filterMap_keepSome kwargs k v
  · intro hnd k
    rw [make_payload_body_eq kwargs hnd]
    exact alookup_filterMap_keepSome kwargs hnd k
  · intro hall
    rw [make_payload, make_payload_body_all_none kwargs hall]

/-- C3 witness: a concrete mapping with one set and one unset argument,
and the all-unset edge case. -/
theorem C3_make_payload_shape_witness :
    alookup (make_payload_body
      [("filter", some (JSON.num 1)), ("projection", (none : Option JSON))]) "filter" =
      some (JSON.num 1) ∧
    make_payload "findCollections" [("options", (none : Option JSON))] =
      JSON.obj [("findCollections", JSON.obj [])] := by
  constructor
  · have h := (C3_make_payload_shape "find"
      [("filter", some (JSON.num 1)), ("projection", (none : Option JSON))]).2.2.1
      (by decide) "filter"
    exact h.trans rfl
  · exact (C3_make_payload_shape "findCollections" [("options", none)]).2.2.2 (by simp)

/-- C7: the streaming-tenant deletion operation returns `None` (success)
exactly when the transport's response status is 202, and for any other
status raises a `ValueError` whose message is the raw response text. -/
theorem C7_delete_streaming_tenant_status (ops : AstraDBOps) (dfl : Defaults)
    (t : Transport) (tenant cluster : String) :
    delete_streaming_tenant ops dfl t tenant cluster =
      (let req := (ops.ops_request dfl t "DELETE"
        ("/streaming/tenants/" ++ tenant ++ "/clusters/" ++ cluster) none none).1
       (req, if (t req).status_code = 202 then .ok ()
             else .error (.valueError (t req).text))) := by
  simp only [delete_streaming_tenant, AstraDBOps.ops_request]
  split <;> simp_all

/-- C8: every request built by the transport helper carries exactly one
authentication header plus a `User-Agent` header of the form
`astrapy/<version>`; every control-plane request carries `Authorization`
with the `Bearer `-prefixed token fixed by the ops handle's constructor.
(The hypothesis rules out the degenerate collision of the caller-chosen
auth header name with `User-Agent`, which no caller of the source uses.) -/
theorem C8_auth_and_user_agent_headers (dfl : Defaults)
    (base_url auth_header token method path : String)
    (json_data url_params : Option JSON)
    (h : auth_header ≠ "User-Agent") :
    (make_request dfl base_url auth_header token method path json_data url_params).headers =
      [(auth_header, token), ("User-Agent", "astrapy/" ++ dfl.version)] ∧
    (∀ (tok : String) (dev_ops_url : Option String) (t : Transport)
        (m p : String) (options jd : Option JSON),
      ((AstraDBOps.init dfl tok dev_ops_url).ops_request dfl t m p options jd).1.headers =
        [("Authorization", "Bearer " ++ tok), ("User-Agent", "astrapy/" ++ dfl.version)]) := by
  constructor
  · simp [make_request, pyDictInsert, h]
  · intro tok dev_ops_url t m p options jd
    simp [AstraDBOps.ops_request, AstraDBOps.init, make_request, pyDictInsert]

/-- C8 witness: concrete header names. -/
theorem C8_auth_and_user_agent_headers_witness :
    (make_request ⟨"T", "ks", "/b", "u", "/v2", "1.0"⟩ "https://h" "T" "tok" "POST" "/p"
      none none).headers = [("T", "tok"), ("User-Agent", "astrapy/1.0")] :=
  (C8_auth_and_user_agent_headers ⟨"T", "ks", "/b", "u", "/v2", "1.0"⟩ "https://h" "T"
    "tok" "POST" "/p" none none (by decide)).1

/-- C4: for every data-plane request, a response body
`{"errors":[{"errorCode":"X"}]}` raises a `ValueError` whose message is
the serialized error list (which contains `"X"`) when error-checking is
enabled, and the same body is returned unchanged when error-checking is
suppressed — both through `_request` with `skip_error_check` set and
through `insert_many`'s `partial_failures_allowed` opt-in. -/
theorem C4_error_rule (dfl : Defaults) (c : AstraDBCollection) (t : Transport)
    (method path : String) (jd up : Option JSON) (docs : List JSON) (opts : Option JSON)
    (h : ∀ q, (t q).body = errBodyX) :
    (c.request dfl t method path jd up false).2 =
      .error (.valueError "[\x7b\"errorCode\": \"X\"\x7d]") ∧
    (∃ a b : String, "[\x7b\"errorCode\": \"X\"\x7d]" = a ++ "\"X\"" ++ b) ∧
    (c.request dfl t method path jd up true).2 = .ok errBodyX ∧
    (insert_many c dfl t docs opts true).2 = .ok errBodyX := by
  refine ⟨?_, ⟨"[\x7b\"errorCode\": ", "\x7d]", rfl⟩, ?_, ?_⟩
  · simp only [AstraDBCollection.request, h]
    rfl
  · simp only [AstraDBCollection.request, h]
    rfl
  · simp only [insert_many, AstraDBCollection.request, h]
    rfl

/-- C4 witness: the concrete error body through a concrete stub. -/
theorem C4_error_rule_witness :
    (sampleColl.request sampleDfl stubXTransport "POST" "/p" none none false).2 =
      .error (.valueError "[\x7b\"errorCode\": \"X\"\x7d]") ∧
    (insert_many sampleColl sampleDfl stubXTransport [] none true).2 = .ok errBodyX := by
  have h := C4_error_rule sampleDfl sampleColl stubXTransport "POST" "/p" none none []
    none (fun _ => rfl)
  exact ⟨h.1, h.2.2.2⟩

/-- C9: with error-checking enabled, both `_request` implementations raise
as soon as the key `"errors"` is present in the (object-shaped) response
body — its value need not be a non-empty list; the raised message is the
serialization of whatever that value is. -/
theorem C9_errors_key_presence_raises (dfl : Defaults) (c : AstraDBCollection)
    (db : AstraDB) (t : Transport) (body : JSON)
    (h : ∀ q, (t q).body = body) (hk : hasKey body "errors" = true)
    (method path : String) (jd up : Option JSON) :
    (c.request dfl t method path jd up false).2 =
      .error (.valueError (dumps (getKeyD body "errors" .null))) ∧
    (db.request dfl t method path jd false).2 =
      .error (.valueError (dumps (getKeyD body "errors" .null))) := by
  constructor
  · simp [AstraDBCollection.request, h, hk]
  · simp [AstraDB.request, h, hk]

/-- C9 witness: an empty `errors` list still raises, with message `[]`. -/
theorem C9_errors_key_presence_raises_witness :
    (sampleColl.request sampleDfl stubEmptyErrors "POST" "/p" none none false).2 =
      .error (.valueError "[]") ∧
    (sampleDB.request sampleDfl stubEmptyErrors "POST" "/p" none false).2 =
      .error (.valueError "[]") := by
  have h := C9_errors_key_presence_raises sampleDfl sampleColl sampleDB stubEmptyErrors
    (.obj [("errors", .arr [])]) (fun _ => rfl) rfl "POST" "/p" none none
  exact ⟨h.1.trans rfl, h.2.trans rfl⟩

/-- C1: evaluation of `upsert` at the claim's failing input.  When the
stubbed insert responds with the `DOCUMENT_ALREADY_EXISTS` error, the
claim (and `upsert`'s own docstring) promise a single follow-up
find-and-replace returning the echoed `_id`; the code instead issues no
follow-up call at all and propagates the `ValueError` that `insert_one`'s
own error check raises, because `insert_one` never passes
`skip_error_check`, making `upsert`'s error branch unreachable. -/
theorem C1_upsert_raises_instead_of_replacing :
    (upsert sampleColl sampleDfl stubDupTransport (.obj [("_id", .str "a")])).1.length = 1 ∧
    ((upsert sampleColl sampleDfl stubDupTransport (.obj [("_id", .str "a")])).1.map
        (fun q => q.jsonData)) =
      [some (make_payload "insertOne" [("document", some (.obj [("_id", .str "a")]))])] ∧
    (upsert sampleColl sampleDfl stubDupTransport (.obj [("_id", .str "a")])).2 =
      .error (.valueError "[\x7b\"errorCode\": \"DOCUMENT_ALREADY_EXISTS\"\x7d]") := by
  refine ⟨rfl, rfl, rfl⟩

theorem pageFields_mkPage (docs : List JSON) (nps : JSON) :
    pageFields (mkPage docs nps) = some (docs, nps) := rfl

/-- C2: for every request method answering the first call (with the
original options) with a page whose cursor is `A`, the `pagingState = A`
call with a page whose cursor is `B`, and the `pagingState = B` call with
a page whose cursor is null, pagination yields every document of the three
pages in page order, issues exactly those three calls — the second and
third carrying `pagingState` `A` resp. `B` merged into the original
options — and terminates after the page with the null cursor, for any
remaining loop fuel. -/
theorem C2_paginate_three_pages (rm : Objs → JSON) (opts : Option Objs)
    (docs1 docs2 docs3 : List JSON) (A B : String) (fuel : Nat)
    (h1 : rm (opts.getD []) = mkPage docs1 (.str A))
    (h2 : rm (pyMerge (opts.getD []) [("pagingState", .str A)]) = mkPage docs2 (.str B))
    (h3 : rm (pyMerge (opts.getD []) [("pagingState", .str B)]) = mkPage docs3 .null) :
    paginate rm opts (fuel + 2) =
      some (docs1 ++ docs2 ++ docs3,
        [opts.getD [],
         pyMerge (opts.getD []) [("pagingState", .str A)],
         pyMerge (opts.getD []) [("pagingState", .str B)]]) := by
  have hnull : ∀ f, paginateLoop rm (opts.getD []) .null f = some ([], []) := by
    intro f
    cases f <;> rfl
  simp only [paginate, h1, pageFields_mkPage]
  rw [show fuel + 2 = (fuel + 1) + 1 from rfl]
  simp only [paginateLoop, JSON.isNull, h2, h3, pageFields_mkPage, Bool.false_eq_true,
    if_false, hnull]
  simp [List.append_assoc]

/-- C2 witness: the three-page stub, no initial options. -/
theorem C2_paginate_three_pages_witness :
    paginate stubRM none 2 =
      some ([JSON.num 1, JSON.num 2, JSON.num 3],
        [[], [("pagingState", JSON.str "A")], [("pagingState", JSON.str "B")]]) := by
  have h := C2_paginate_three_pages stubRM none [JSON.num 1] [JSON.num 2] [JSON.num 3]
    "A" "B" 0 rfl rfl rfl
  exact h

/-- C6 (amended): the database-creation operation returns
`{"id": <Location header value>}` when the response status is 201 *and*
the response carries a `Location` header — a 201 response without one
raises a `KeyError` — and returns `None` for any other status; the
termination operation returns the database identifier exactly when the
status is 202 and `None` otherwise, never raising. -/
theorem C6_create_database_status (ops : AstraDBOps) (dfl : Defaults) (t : Transport)
    (ddef : Option JSON) (database : String) :
    create_database ops dfl t ddef =
      (let req := (ops.ops_request dfl t "POST" "/databases" none ddef).1
       (req,
        if (t req).status_code = 201 then
          match ciLookup (t req).headers "Location" with
          | some loc => .ok (some (.obj [("id", .str loc)]))
          | none => .error (.keyError "Location")
        else .ok none)) ∧
    terminate_database ops dfl t database =
      (let req := (ops.ops_request dfl t "POST"
          ("/databases/" ++ database ++ "/terminate") none none).1
       (req, if (t req).status_code = 202 then .ok (some database) else .ok none)) := by
  constructor
  · simp only [create_database, AstraDBOps.ops_request]
    split
    · split <;> simp_all
    · simp_all
  · simp only [terminate_database, AstraDBOps.ops_request]
    split <;> simp_all

/-- C6 counterexample: a transport response with status 201 but no
`Location` header makes `create_database` raise a `KeyError` — refuting
the claim that a 201 always yields `{"id": ...}` and that the operation
never raises. -/
theorem C6_create_database_counterexample :
    (stub201NoLoc (create_database sampleOps sampleDfl stub201NoLoc none).1).status_code = 201 ∧
    (create_database sampleOps sampleDfl stub201NoLoc none).2 =
      .error (.keyError "Location") := ⟨rfl, rfl⟩

/-- C10 counterexample: with a caller-supplied *empty* options mapping and
`dimension=5`, `if not options:` treats the mapping as falsy and rebinds a
fresh dict, so the caller's mapping is left without any `"vector"` key —
refuting the claim that the caller-supplied mapping is always mutated in
place. -/
theorem C10_create_collection_counterexample :
    (create_collection sampleDB sampleDfl stubOkTransport (some []) (some 5) "" "c").callerOptions =
      some [] ∧
    (create_collection sampleDB sampleDfl stubOkTransport (some []) (some 5) "" "c").outcome =
      .ok stubOkBody := ⟨rfl, rfl⟩

/-- Re-reading a key just written by a Python dict insertion. -/
theorem alookup_pyDictInsert_self {α : Type} (l : List (String × α)) (k : String) (v : α) :
    alookup (pyDictInsert l k v) k = some v := by
  induction l with
  | nil => simp [pyDictInsert, alookup]
  | cons kv rest ih =>
    by_cases h : kv.1 = k <;> simp [pyDictInsert, alookup, h, ih]

/-- C10 (amended): when the supplied options mapping is non-empty
(truthy), `create_collection` mutates it in place — inserting a
`"vector"` key when absent, and inserting a truthy `dimension` / `metric`
parameter under `options["vector"]` — and raises a `ValueError` with no
network call when such a parameter is already present under
`options["vector"]`; a supplied *empty* mapping is replaced by a fresh
local dict and left untouched. -/
theorem C10_create_collection_mutation (db : AstraDB) (dfl : Defaults) (t : Transport)
    (name : String) :
    (∀ o : Objs, o ≠ [] → alookup o "vector" = none →
      (create_collection db dfl t (some o) none "" name).callerOptions =
        some (pyDictInsert o "vector" (.obj []))) ∧
    (∀ (d : Option Int) (m : String),
      (create_collection db dfl t (some []) d m name).callerOptions = some []) ∧
    (∀ (o vec : Objs) (k : Int) (m : String), k ≠ 0 → o ≠ [] →
      alookup o "vector" = some (.obj vec) → (alookup vec "dimension").isSome = true →
      (create_collection db dfl t (some o) (some k) m name).calls = [] ∧
      (create_collection db dfl t (some o) (some k) m name).outcome =
        .error (.valueError
          "dimension parameter provided both in options and as function parameter.")) ∧
    (∀ (o vec : Objs) (m : String), m ≠ "" → o ≠ [] →
      alookup o "vector" = some (.obj vec) → (alookup vec "metric").isSome = true →
      (create_collection db dfl t (some o) none m name).calls = [] ∧
      (create_collection db dfl t (some o) none m name).outcome =
        .error (.valueError
          "metric parameter provided both in options as function parameter.")) ∧
    (∀ (o vec : Objs) (k : Int), k ≠ 0 → o ≠ [] →
      alookup o "vector" = some (.obj vec) → alookup vec "dimension" = none →
      (create_collection db dfl t (some o) (some k) "" name).callerOptions =
        some (pyDictInsert o "vector" (.obj (pyDictInsert vec "dimension" (.num k))))) ∧
    (∀ (o vec : Objs) (m : String), m ≠ "" → o ≠ [] →
      alookup o "vector" = some (.obj vec) → alookup vec "metric" = none →
      (create_collection db dfl t (some o) none m name).callerOptions =
        some (pyDictInsert o "vector" (.obj (pyDictInsert vec "metric" (.str m))))) ∧
    (∀ (o : Objs) (k : Int) (m : String), o ≠ [] → alookup o "vector" = none →
      k ≠ 0 → m ≠ "" →
      ∃ final : Objs,
        (create_collection db dfl t (some o) (some k) m name).callerOptions = some final ∧
        alookup final "vector" =
          some (.obj [("dimension", .num k), ("metric", .str m)])) := by
  refine ⟨?_, ?_, ?_, ?_, ?_, ?_, ?_⟩
  · intro o ho hv
    have hne : o.isEmpty = false := by simpa [List.isEmpty_iff] using ho
    simp [create_collection, hne, hv]
  · intro d m
    rcases d with _ | k
    · by_cases hm : m = "" <;> simp [create_collection, setVectorKey, alookup, hm]
    · by_cases hk : k = 0
      · by_cases hm : m = "" <;> simp [create_collection, setVectorKey, alookup, hm, hk]
      · by_cases hm : m = "" <;> simp [create_collection, setVectorKey, alookup, hm, hk]
  · intro o vec k m hk ho hv hd
    have hne : o.isEmpty = false := by simpa [List.isEmpty_iff] using ho
    constructor <;> simp [create_collection, setVectorKey, hne, hv, hd, hk]
  · intro o vec m hm ho hv hmet
    have hne : o.isEmpty = false := by simpa [List.isEmpty_iff] using ho
    constructor <;> simp [create_collection, setVectorKey, hne, hv, hmet, hm]
  · intro o vec k hk ho hv hd
    have hne : o.isEmpty = false := by simpa [List.isEmpty_iff] using ho
    simp [create_collection, setVectorKey, hne, hv, hd, hk]
  · intro o vec m hm ho hv hmet
    have hne : o.isEmpty = false := by simpa [List.isEmpty_iff] using ho
    simp [create_collection, setVectorKey, hne, hv, hmet, hm]
  · intro o k m ho hv hk hm
    have hne : o.isEmpty = false := by simpa [List.isEmpty_iff] using ho
    refine ⟨pyDictInsert (pyDictInsert (pyDictInsert o "vector" (.obj []))
        "vector" (.obj [("dimension", JSON.num k)]))
        "vector" (.obj [("dimension", JSON.num k), ("metric", JSON.str m)]), ?_, ?_⟩
    · simp [create_collection, setVectorKey, hne, hv, hk, hm,
        alookup_pyDictInsert_self, pyDictInsert, alookup]
    · exact alookup_pyDictInsert_self _ _ _

/-- C10 witness: the duplicate-dimension error and the in-place metric
insertion at concrete inputs. -/
theorem C10_create_collection_mutation_witness :
    ((create_collection sampleDB sampleDfl stubOkTransport
      (some [("vector", JSON.obj [("dimension", JSON.num 3)])]) (some 5) "" "c").calls = [] ∧
    (create_collection sampleDB sampleDfl stubOkTransport
      (some [("vector", JSON.obj [("dimension", JSON.num 3)])]) (some 5) "" "c").outcome =
      .error (.valueError
        "dimension parameter provided both in options and as function parameter.")) ∧
    (create_collection sampleDB sampleDfl stubOkTransport
      (some [("vector", JSON.obj [])]) none "cosine" "c").callerOptions =
      some [("vector", JSON.obj [("metric", JSON.str "cosine")])] := by
  constructor
  · exact (C10_create_collection_mutation sampleDB sampleDfl stubOkTransport "c").2.2.1
      [("vector", JSON.obj [("dimension", JSON.num 3)])] [("dimension", JSON.num 3)] 5 ""
      (by decide) (List.cons_ne_nil _ _) rfl rfl
  · exact ((C10_create_collection_mutation sampleDB sampleDfl stubOkTransport
      "c").2.2.2.2.2.1 [("vector", JSON.obj [])] [] "cosine"
      (by decide) (List.cons_ne_nil _ _) rfl rfl).trans rfl

theorem dropStart_self_append (p s : List Char) : dropStart p (p ++ s) = some s := by
  induction p with
  | nil => rfl
  | cons c cs ih => simp [dropStart, ih]

theorem dropStart_eq_some {p cs s : List Char} (h : dropStart p cs = some s) :
    cs = p ++ s := by
  induction p generalizing cs with
  | nil =>
    simp only [dropStart, Option.some.injEq] at h
    simp [h]
  | cons c cs' ih =>
    cases cs with
    | nil => simp [dropStart] at h
    | cons d ds =>
      simp only [dropStart] at h
      by_cases hcd : c = d
      · rw [if_pos hcd] at h
        subst hcd
        simp [ih h]
      · rw [if_neg hcd] at h
        exact absurd h (by simp)

theorem takeWhile_decomp (p : Char → Bool) (l : List Char) :
    l = l.takeWhile p ++ l.drop (l.takeWhile p).length := by
  induction l with
  | nil => rfl
  | cons c cs ih =>
    by_cases hc : p c
    · simp only [List.takeWhile_cons, hc, if_true, List.length_cons, List.drop_succ_cons,
        List.cons_append]
      exact congrArg (c :: ·) ih
    · simp [List.takeWhile_cons, hc]

theorem all_takeWhile (p : Char → Bool) (l : List Char) : (l.takeWhile p).all p = true := by
  induction l with
  | nil => rfl
  | cons c cs ih =>
    by_cases hc : p c <;> simp [List.takeWhile_cons, hc, ih]

theorem takeWhile_append_all {p : Char → Bool} {l : List Char} (r : List Char)
    (h : l.all p = true) : (l ++ r).takeWhile p = l ++ r.takeWhile p := by
  induction l with
  | nil => rfl
  | cons c cs ih =>
    simp only [List.all_cons, Bool.and_eq_true] at h
    simp [List.takeWhile_cons, h.1, ih h.2]

theorem all_take (p : Char → Bool) (l : List Char) (n : Nat) (h : l.all p = true) :
    (l.take n).all p = true := by
  rw [List.all_eq_true] at *
  exact fun x hx => h x (List.take_subset n l hx)

theorem take_len_append {α : Type} (l r : List α) (n : Nat) (h : l.length = n) :
    (l ++ r).take n = l := by
  subst h
  exact List.take_left l r

theorem regionAfter_eq_some {t region u : List Char}
    (h : regionAfter t = some (region, u)) :
    region ≠ [] ∧ region.all regionClass = true ∧ t = region ++ '.' :: u := by
  simp only [regionAfter] at h
  split at h
  · exact absurd h (by simp)
  · rename_i hne
    split at h
    · rename_i u' hdrop
      simp only [Option.some.injEq, Prod.mk.injEq] at h
      obtain ⟨hr, hu⟩ := h
      subst hr
      subst hu
      refine ⟨?_, all_takeWhile _ _, ?_⟩
      · intro hnil
        rw [hnil] at hne
        exact hne rfl
      · conv_lhs => rw [takeWhile_decomp regionClass t]
        rw [hdrop]
    · exact absurd h (by simp)

theorem hostMatch_eq_some {u host : List Char} (h : hostMatch u = some host) :
    ∃ hpre rest : List Char, host = hpre ++ dotcom ∧ hpre ≠ [] ∧
      hpre.all hostClass = true ∧ u = hpre ++ (dotcom ++ rest) := by
  simp only [hostMatch] at h
  split at h
  · rename_i k hfind
    simp only [Option.some.injEq] at h
    have hpred := List.find?_some hfind
    simp only [Bool.and_eq_true, decide_eq_true_eq, Option.isSome_iff_exists] at hpred
    obtain ⟨hkpos, w, hw⟩ := hpred
    have hklt : k < (u.takeWhile hostClass).length := by
      have := List.mem_of_find?_eq_some hfind
      rw [List.mem_reverse, List.mem_range] at this
      exact this
    set r := u.takeWhile hostClass with hr
    have hdropk : r.drop k = dotcom ++ w := dropStart_eq_some hw
    have hlentake : (r.take k).length = k := by
      rw [List.length_take]
      omega
    refine ⟨r.take k, w ++ u.drop r.length, ?_, ?_, ?_, ?_⟩
    · rw [← h]
      have hsplit : r = (r.take k ++ dotcom) ++ w := by
        conv_lhs => rw [← List.take_append_drop k r]
        rw [hdropk, List.append_assoc]
      conv_lhs => rw [hsplit]
      rw [show k + 4 = (r.take k ++ dotcom).length by
        rw [List.length_append, hlentake]; rfl]
      exact List.take_left _ _
    · intro hnil
      rw [hnil] at hlentake
      simp at hlentake
      omega
    · exact all_take hostClass r k (all_takeWhile hostClass u)
    · have hlenr : r.length = k + (dotcom.length + w.length) := by
        conv_lhs => rw [← List.take_append_drop k r, hdropk]
        simp [hlentake]
      conv_lhs => rw [takeWhile_decomp hostClass u]
      rw [← hr]
      conv_lhs => rw [← List.take_append_drop k r, hdropk]
      simp only [List.append_assoc, List.append_cancel_left_eq]
      congr 1
      simp only [List.length_append, hlentake]
      omega
  · exact absurd h (by simp)

/-- Soundness of the matcher: a successful parse means the URL matches the
declarative reading of the endpoint pattern. -/
theorem parseEndpointChars_sound {cs : List Char} {g : List Char × List Char × List Char}
    (h : parseEndpointChars cs = some g) : matchesEndpointPattern cs := by
  simp only [parseEndpointChars] at h
  split at h
  · exact absurd h (by simp)
  · rename_i s hds
    split at h
    · rename_i hid
      split at h
      · rename_i t hdrop
        split at h
        · exact absurd h (by simp)
        · rename_i region u hra
          split at h
          · exact absurd h (by simp)
          · rename_i host hhm
            simp only [Bool.and_eq_true, beq_iff_eq] at hid
            obtain ⟨hr1, hr2, hr3⟩ := regionAfter_eq_some hra
            obtain ⟨hpre, rest, _, hp1, hp2, hp3⟩ := hostMatch_eq_some hhm
            refine ⟨s.take 36, region, hpre, rest, ?_, hid.1, hid.2, hr1, hr2, hp1, hp2⟩
            have hs2 : s = s.take 36 ++
                '-' :: (region ++ '.' :: (hpre ++ (dotcom ++ rest))) := by
              conv_lhs => rw [← List.take_append_drop 36 s]
              rw [hdrop, hr3, hp3]
            rw [dropStart_eq_some hds, hs2]
            simp only [List.append_assoc, List.append_cancel_left_eq]
            rw [take_len_append (List.take 36 s) _ 36 hid.1]
      · exact absurd h (by simp)
    · exact absurd h (by simp)

theorem regionAfter_complete {region : List Char} (u : List Char)
    (hne : region ≠ []) (hall : region.all regionClass = true) :
    regionAfter (region ++ '.' :: u) = some (region, u) := by
  have htw : (region ++ '.' :: u).takeWhile regionClass = region := by
    rw [takeWhile_append_all _ hall]
    simp [List.takeWhile_cons, regionClass]
  simp only [regionAfter, htw]
  rw [if_neg (by simpa [List.isEmpty_iff] using hne)]
  rw [List.drop_left]
  rfl

theorem hostMatch_complete (hpre rest : List Char)
    (hne : hpre ≠ []) (hall : hpre.all hostClass = true) :
    (hostMatch (hpre ++ (dotcom ++ rest))).isSome = true := by
  have hdot : dotcom.all hostClass = true := by decide
  have htw : (hpre ++ (dotcom ++ rest)).takeWhile hostClass =
      hpre ++ (dotcom ++ rest.takeWhile hostClass) := by
    rw [takeWhile_append_all _ hall, takeWhile_append_all _ hdot]
  have hfind : ((List.range ((hpre ++ (dotcom ++ rest)).takeWhile hostClass).length).reverse.find?
      (fun k => decide (0 < k) &&
        (dropStart dotcom (((hpre ++ (dotcom ++ rest)).takeWhile hostClass).drop k)).isSome)).isSome := by
    rw [List.find?_isSome]
    refine ⟨hpre.length, ?_, ?_⟩
    · rw [List.mem_reverse, List.mem_range, htw, List.length_append, List.length_append]
      have : 0 < dotcom.length := by decide
      omega
    · rw [htw, List.drop_left, dropStart_self_append]
      simp [List.length_pos.mpr hne]
  rw [Option.isSome_iff_exists] at hfind
  obtain ⟨k, hk⟩ := hfind
  simp only [hostMatch, hk]
  rfl

/-- Completeness of the matcher: a URL matching the declarative reading of
the endpoint pattern parses successfully. -/
theorem parseEndpointChars_complete {cs : List Char} (h : matchesEndpointPattern cs) :
    (parseEndpointChars cs).isSome = true := by
  obtain ⟨id, region, hpre, rest, hcs, hlen, hall, hrne, hrall, hpne, hpall⟩ := h
  subst hcs
  rw [List.append_assoc]
  simp only [parseEndpointChars, dropStart_self_append]
  rw [show (36 : Nat) = id.length from hlen.symm, List.take_left, List.drop_left]
  simp only [beq_self_eq_true, hall, Bool.and_self, if_true]
  rw [regionAfter_complete _ hrne hrall]
  have hhm := hostMatch_complete hpre rest hpne hpall
  rw [Option.isSome_iff_exists] at hhm
  obtain ⟨host, hh⟩ := hhm
  simp [hh]

/-- C5: parsing the spec's example endpoint yields the example triple, and
a URL fails with the invalid-format error exactly when it does not match
the fixed pattern (so every non-matching string fails — and the parsing
happens in the constructor, before any request is issued). -/
theorem C5_parse_endpoint :
    parse_endpoint_url
        "https://01234567-89ab-cdef-0123-456789abcdef-us-east1.apps.astra.datastax.com" =
      some ("01234567-89ab-cdef-0123-456789abcdef", "us-east1", "apps.astra.datastax.com") ∧
    (∀ url : String,
      parse_endpoint_url url = none ↔ ¬ matchesEndpointPattern url.toList) ∧
    (∀ (dfl : Defaults) (tok ep : String) (ns : Option String),
      parse_endpoint_url ep = none →
        AstraDB.init dfl (some tok) (some ep) ns =
          .error (.valueError "Invalid URL format")) := by
  refine ⟨by decide, ?_, ?_⟩
  · intro url
    rw [parse_endpoint_url, Option.map_eq_none']
    constructor
    · intro hnone hm
      have hs := parseEndpointChars_complete hm
      rw [hnone] at hs
      simp at hs
    · intro hnm
      cases hp : parseEndpointChars url.toList with
      | none => rfl
      | some g => exact absurd (parseEndpointChars_sound hp) hnm
  · intro dfl tok ep ns h
    simp [AstraDB.init, h]

/-- C5 witness: a concrete string that fails the pattern (shown by running
the parser), hence is rejected both by the parser and by the `AstraDB`
constructor, with no request issued. -/
theorem C5_parse_endpoint_witness :
    ¬ matchesEndpointPattern "foo".toList ∧
    AstraDB.init sampleDfl (some "tok") (some "foo") none =
      .error (.valueError "Invalid URL format") :=
  ⟨(C5_parse_endpoint.2.1 "foo").mp (by decide),
   C5_parse_endpoint.2.2 sampleDfl "tok" "foo" none (by decide)⟩

end Astrapy

